import Mathlib

/-!
Shallow embedding of the request-admission and caching core of the
voice-assistant repository (src/utils/rate_limiter.py, src/utils/cache_manager.py,
src/gemini_client.py), together with theorems settling the frozen claims.

Timestamps are modelled as integers (`ℤ`).  All the Python code does with its
`time.time()` float timestamps is subtract them and compare the results against
integer window widths and timeouts, so the linearly ordered group ℤ is a
faithful executable stand-in: every proof below uses only the ordered-group
structure, and every witness evaluates on concrete integer times.
-/

namespace VoiceAssist

/-! ### ModelLimiter (src/utils/rate_limiter.py, class ModelLimiter)

A `deque` of grant timestamps per window, oldest first.  `_clean_old_requests`
pops from the left while `now - ts >= window`. -/

structure ModelLimiter where
  rpm : Nat
  rpd : Nat
  minute_requests : List ℤ
  day_requests : List ℤ

def ModelLimiter.init (rpm rpd : Nat) : ModelLimiter :=
  ⟨rpm, rpd, [], []⟩

/-- The `while deque and now - deque[0] >= window: popleft()` loop. -/
def cleanQueue (now win : ℤ) : List ℤ → List ℤ
  | [] => []
  | t :: ts => if now - t ≥ win then cleanQueue now win ts else t :: ts

/-- `ModelLimiter._clean_old_requests` (minute window 60, day window 86400). -/
def ModelLimiter.clean_old_requests (l : ModelLimiter) (now : ℤ) : ModelLimiter :=
  { l with minute_requests := cleanQueue now 60 l.minute_requests
         , day_requests := cleanQueue now 86400 l.day_requests }

/-- `ModelLimiter.try_acquire`: clean, check both counts, on success record
`now` into both windows. -/
def ModelLimiter.try_acquire (l : ModelLimiter) (now : ℤ) : Bool × ModelLimiter :=
  let lc := l.clean_old_requests now
  if lc.minute_requests.length < lc.rpm ∧ lc.day_requests.length < lc.rpd then
    (true, { lc with minute_requests := lc.minute_requests ++ [now]
                   , day_requests := lc.day_requests ++ [now] })
  else
    (false, lc)

/-- `ModelLimiter.get_wait_time`.  The Python indexes `deque[0]`; that index is
only reached when the deque is nonempty (the guarding `len >= rpm` check with
`rpm > 0` in every reachable configuration), modelled by `headI`. -/
def ModelLimiter.get_wait_time (l : ModelLimiter) (now : ℤ) : ℤ :=
  let minute_wait : ℤ :=
    if l.rpm ≤ l.minute_requests.length then
      max 0 (60 - (now - l.minute_requests.headI)) else 0
  let day_wait : ℤ :=
    if l.rpd ≤ l.day_requests.length then
      max 0 (86400 - (now - l.day_requests.headI)) else 0
  max minute_wait day_wait

/-- Run a sequence of `try_acquire` calls at the given times; returns the final
limiter state and the chronological list of granted timestamps. -/
def ModelLimiter.runAcquires (l : ModelLimiter) : List ℤ → ModelLimiter × List ℤ
  | [] => (l, [])
  | t :: ts =>
    let r := l.try_acquire t
    let rest := r.2.runAcquires ts
    (rest.1, (if r.1 then [t] else []) ++ rest.2)

/-! ### RateLimiter (dual tier) -/

inductive ModelType where
  | pro
  | flash
deriving DecidableEq, Repr

def ModelType.other : ModelType → ModelType
  | .pro => .flash
  | .flash => .pro

structure RateLimiter where
  proLimiter : ModelLimiter
  flashLimiter : ModelLimiter
  current : ModelType

def RateLimiter.limiterOf (r : RateLimiter) : ModelType → ModelLimiter
  | .pro => r.proLimiter
  | .flash => r.flashLimiter

def RateLimiter.setLimiter (r : RateLimiter) : ModelType → ModelLimiter → RateLimiter
  | .pro, l => { r with proLimiter := l }
  | .flash, l => { r with flashLimiter := l }

/-- Would `try_acquire` grant at time `now`?  ("spare capacity at call time") -/
def ModelLimiter.hasCapacity (l : ModelLimiter) (now : ℤ) : Bool :=
  let lc := l.clean_old_requests now
  decide (lc.minute_requests.length < lc.rpm) && decide (lc.day_requests.length < lc.rpd)

/-- `RateLimiter.try_acquire`: current tier first; on denial the other tier;
switch the current-tier pointer only when the other tier grants. -/
def RateLimiter.try_acquire (r : RateLimiter) (now : ℤ) : Bool × RateLimiter :=
  let cur := r.current
  let a1 := (r.limiterOf cur).try_acquire now
  let r1 := r.setLimiter cur a1.2
  if a1.1 then (true, r1)
  else
    let a2 := (r1.limiterOf cur.other).try_acquire now
    let r2 := r1.setLimiter cur.other a2.2
    if a2.1 then (true, { r2 with current := cur.other })
    else (false, r2)

/-- Invariant tying a limiter state to the full list `gs` of grant timestamps,
`T` being the time of the most recent `try_acquire` call. -/
def WinInv (l : ModelLimiter) (gs : List ℤ) (T : ℤ) : Prop :=
  l.minute_requests = gs.filter (fun g => decide (T - g < 60)) ∧
  l.day_requests = gs.filter (fun g => decide (T - g < 86400)) ∧
  gs.Pairwise (· ≤ ·) ∧
  (∀ g ∈ gs, g ≤ T) ∧
  l.minute_requests.length ≤ l.rpm ∧
  l.day_requests.length ≤ l.rpd

/-! ### CacheManager (src/utils/cache_manager.py)

Python strings are modelled as their character lists (`Str`), so that every
operation of the model is structurally recursive and evaluates inside the
kernel.  The `OrderedDict` is modelled as an association list in recency
order: head = least recently used, last = most recently used.  Python's
`self._cache[key] = v` followed by `move_to_end(key)` is, for the unique-key
states an `OrderedDict` can reach, exactly "erase the key's entry, then append
the new entry at the end". -/

abbrev Str := List Char

structure CacheManager (α : Type) where
  cache : List (Str × α × ℤ)
  enabled : Bool
  timeout : ℤ
  max_items : Nat

def CacheManager.init (α : Type) (enabled : Bool) (timeout : ℤ) (max_items : Nat) :
    CacheManager α :=
  ⟨[], enabled, timeout, max_items⟩

/-- `CacheManager.get`: on a live hit return the value and move the entry to
the most-recently-used end; on an expired hit delete the entry and return
nothing; `None` when disabled or absent. -/
def CacheManager.get {α : Type} (c : CacheManager α) (key : Str) (now : ℤ) :
    Option α × CacheManager α :=
  if c.enabled then
    match c.cache.find? (fun e => decide (e.1 = key)) with
    | none => (none, c)
    | some e =>
      if now - e.2.2 ≤ c.timeout then
        (some e.2.1,
          { c with cache := (c.cache.eraseP (fun x => decide (x.1 = key))) ++ [e] })
      else
        (none, { c with cache := c.cache.eraseP (fun x => decide (x.1 = key)) })
  else (none, c)

/-- The `while len(self._cache) >= self.max_items: popitem(last=False)` loop
(pop from the least-recently-used front).  For `max_items = 0` the Python loop
would raise `KeyError` on the empty dict; the claims assume a positive
capacity, as the shipped configuration has. -/
def evictOldest {α : Type} (m : Nat) : List (Str × α × ℤ) → List (Str × α × ℤ)
  | [] => []
  | e :: rest => if m ≤ (e :: rest).length then evictOldest m rest else e :: rest

/-- `CacheManager.set`: evict from the LRU front while at or above capacity,
then store `(value, now)` under `key` as most-recently-used. -/
def CacheManager.set {α : Type} (c : CacheManager α) (key : Str) (value : α)
    (now : ℤ) : CacheManager α :=
  if c.enabled then
    { c with cache := ((evictOldest c.max_items c.cache).eraseP
        (fun x => decide (x.1 = key))) ++ [(key, value, now)] }
  else c

/-- Fold a sequence of `set` calls. -/
def CacheManager.setMany {α : Type} (c : CacheManager α)
    (ops : List (Str × α × ℤ)) : CacheManager α :=
  ops.foldl (fun c op => c.set op.1 op.2.1 op.2.2) c

/-- A Python dict never holds two entries for one key; reachable model states
satisfy this. -/
def NodupKeys {α : Type} (l : List (Str × α × ℤ)) : Prop :=
  (l.map (fun e => e.1)).Nodup

instance nodupKeysDecidable {α : Type} (l : List (Str × α × ℤ)) :
    Decidable (NodupKeys l) := by
  unfold NodupKeys
  infer_instance

/-! ### GeminiClient.send_query (src/gemini_client.py)

Python strings are `Str = List Char`.  `str.lower()` is modelled by mapping
`Char.toLower` (the phrases the code tests for are pure ASCII);
`pat in s` by a structural substring scan; `str.replace(pat, "")` for the
nonempty patterns used by the code by removing every non-overlapping
occurrence left to right; `str.strip()` by dropping whitespace at both ends.
The md5 digest of `_generate_cache_key` is a fixed deterministic function of
the joined key string, so the model uses the pre-hash key string itself as
the fingerprint: equal key strings give equal digests, and the distinct key
strings compared below are far below any md5 collision.

External collaborators are oracles in `QueryEnv`: `fileMeta` is
`os.path.getmtime`/`os.path.getsize` (`none` = `OSError`), `openOk` is
whether `PIL.Image.open` succeeds, `admission k` is the result of the
`rate_limiter.wait_for_token(timeout=10)` call on loop iteration `k`,
`backend k` the outcome of the k-th `generate_content` dispatch, and
`histFails k` an exception raised by the k-th
`history.add_conversation` use (`ConversationHistory` performs un-guarded
sqlite writes, so it can raise).  `_extract_tags` iterates a Python `set`, so
the tag list is ordering-nondeterministic; the conversation-log record is
modelled by its deterministic fields (question, response, images). -/

def str (s : String) : Str := s.data

def strLower (s : Str) : Str := s.map Char.toLower

/-- Python substring containment `pat in s`. -/
def strContainsSub : Str → Str → Bool
  | [], pat => pat.isEmpty
  | c :: rest, pat => pat.isPrefixOf (c :: rest) || strContainsSub rest pat

/-- Remove every (non-overlapping, left-to-right) occurrence of `pat`:
Python `s.replace(pat, "")` for the nonempty patterns used here.  The fuel is
`s.length`; each step consumes at least one character. -/
def removeAllAux (pat : Str) : Nat → Str → Str
  | 0, s => s
  | _fuel + 1, [] => []
  | fuel + 1, c :: rest =>
    if pat.isPrefixOf (c :: rest) ∧ pat ≠ [] then
      removeAllAux pat fuel (List.drop pat.length (c :: rest))
    else
      c :: removeAllAux pat fuel rest

def strRemoveAll (s pat : Str) : Str := removeAllAux pat s.length s

/-- Python `str.strip()`. -/
def strStrip (s : Str) : Str :=
  ((s.dropWhile Char.isWhitespace).reverse.dropWhile Char.isWhitespace).reverse

/-- The characters the code strips from responses: `*`, `´` (U+00B4),
backtick (U+0060), `"`, `'`. -/
def stripChars : Str :=
  [Char.ofNat 42, Char.ofNat 180, Char.ofNat 96, Char.ofNat 34, Char.ofNat 39]

/-- The `for char in [...]: text = text.replace(char, "")` loop: sequentially
removing every occurrence of five distinct single characters is removing every
occurrence of each. -/
def sanitizeText (s : Str) : Str := s.filter (fun c => !(stripChars.contains c))

def phraseImperative : Str := str "pesquise na internet"

def phraseNoun : Str := str "pesquisa na internet"

/-- The guard of the web-search branch (src/gemini_client.py line 124). -/
def wantsWebSearch (question : Str) : Bool :=
  strContainsSub (strLower question) phraseImperative ||
    strContainsSub (strLower question) phraseNoun

/-- Outcome of the `requests.get` + BeautifulSoup web search. -/
inductive WebOutcome where
  | exc (err : Str)
  | status (code : Nat) (snippets : List Str)

/-- Outcome of one `generate_content` dispatch: an exception, or a response
with optional `.text` (`some []` models a present-but-empty text, which Python
treats as falsy) and whether its candidates carry `safety_ratings`. -/
inductive BackendOutcome where
  | exc (err : Str)
  | resp (text : Option Str) (blocked : Bool)

inductive QueryResult where
  | ok (text : Str)
  | raised (err : Str)
deriving DecidableEq, Repr

def QueryResult.isOk : QueryResult → Bool
  | .ok _ => true
  | .raised _ => false

structure QueryEnv where
  fileMeta : Str → Option (ℤ × ℤ)
  openOk : Str → Bool
  admission : Nat → Bool
  waitMsg : Str
  backend : Nat → BackendOutcome
  histFails : Nat → Option Str
  web : WebOutcome
  now : ℤ

structure HistRecord where
  question : Str
  response : Str
  images : List Str
deriving DecidableEq, Repr

structure GState where
  cache : CacheManager Str
  history : List HistRecord

structure Trace where
  admissionChecks : Nat
  backendCalls : Nat
  sleeps : List Nat
  logged : List Str

def emptyTrace : Trace := ⟨0, 0, [], []⟩

def unavailableMsg (waitMsg : Str) : Str :=
  str "Serviço temporariamente indisponível. Tempo de espera por modelo: " ++ waitMsg

def blockedMsg : Str :=
  str "A resposta foi bloqueada por questões de segurança do modelo Gemini."

def cantProcessMsg : Str := str "Desculpe, não consegui processar sua pergunta."

def errorMsg : Str := str "Desculpe, ocorreu um erro ao processar sua pergunta."

/-- `GeminiClient._generate_cache_key`, up to the final md5 digest: the
question, then for each image `path:mtime:size`, or the bare `path` when the
metadata lookup raises `OSError`, joined with `"||"`. -/
def generate_cache_key (fileMeta : Str → Option (ℤ × ℤ)) (question : Str)
    (image_paths : List Str) : Str :=
  let key_parts := question :: image_paths.map (fun path =>
    match fileMeta path with
    | some (mtime, size) =>
      path ++ str ":" ++ str (toString mtime) ++ str ":" ++ str (toString size)
    | none => path)
  List.intercalate (str "||") key_parts

/-- `GeminiClient._process_images`: images whose `Image.open` raises are
printed and skipped. -/
def process_images (openOk : Str → Bool) (image_paths : List Str) : List Str :=
  image_paths.filter openOk

/-- The web-search branch (src/gemini_client.py lines 124-147). -/
def webSearch (web : WebOutcome) (question : Str) : Str :=
  let query := strStrip
    (strRemoveAll (strRemoveAll (strLower question) phraseImperative) phraseNoun)
  if query = [] then
    str "Por favor, especifique o que deseja pesquisar na internet."
  else
    match web with
    | .exc e => str "Erro ao realizar pesquisa na internet: " ++ e
    | .status code snippets =>
      if code = 200 then
        if snippets.take 3 = [] then
          str "Nenhum resultado relevante encontrado na internet."
        else
          sanitizeText (str "Resultados da pesquisa na internet:\n" ++
            List.intercalate (str "\n\n") (snippets.take 3))
      else
        str "Não foi possível acessar a pesquisa na internet no momento."

/-- `history.add_conversation(question, response, images, tags)` (tags elided,
see the section comment). -/
def addHistory (st : GState) (q resp : Str) (imgs : List Str) : GState :=
  { st with history := st.history ++ [⟨q, resp, imgs⟩] }

/-- The `while retries < max_retries` dispatch loop of `send_query`
(src/gemini_client.py lines 161-252).  `fuel` equals `max_retries - retries`,
mirroring the loop guard.  Iteration `retries` consults `admission retries`,
then `backend retries`, and on a successful response `histFails retries`
(the `add_conversation` call sits inside the `try`, after `cache.set`, so a
log failure there is caught by the `except` block and consumes a retry).
`_save_temp_response` catches its own exceptions and its `bool` result is
ignored, so it is elided; the progress print carries no error payload and is
elided from the logged-error trace. -/
def queryLoop (env : QueryEnv) (question : Str) (imgs : List Str)
    (cache_key : Str) (max_retries : Nat) :
    Nat → Nat → Option Str → GState → QueryResult × GState × Trace
  | 0, _retries, lastError, st =>
    (.ok errorMsg, st,
      ⟨0, 0, [],
        [str "Erro final: " ++ (match lastError with | some e => e | none => str "None")]⟩)
  | fuel + 1, retries, _lastError, st =>
    if env.admission retries then
      match env.backend retries with
      | .resp text blocked =>
        match text with
        | some s =>
          if s ≠ [] then
            let s' := sanitizeText s
            let st1 : GState := { st with cache := st.cache.set cache_key s' env.now }
            match env.histFails retries with
            | none => (.ok s', addHistory st1 question s' imgs, ⟨1, 1, [], []⟩)
            | some e =>
              if retries + 1 < max_retries then
                let r := queryLoop env question imgs cache_key max_retries fuel
                  (retries + 1) (some e) st1
                (r.1, r.2.1,
                  ⟨r.2.2.admissionChecks + 1, r.2.2.backendCalls + 1,
                    2 ^ (retries + 1) :: r.2.2.sleeps,
                    (str "Erro ao enviar query: " ++ e) :: r.2.2.logged⟩)
              else
                (.ok errorMsg, st1,
                  ⟨1, 1, [],
                    [str "Erro ao enviar query: " ++ e, str "Erro final: " ++ e]⟩)
          else
            if blocked then (.ok blockedMsg, st, ⟨1, 1, [], []⟩)
            else (.ok cantProcessMsg, st, ⟨1, 1, [], []⟩)
        | none =>
          if blocked then (.ok blockedMsg, st, ⟨1, 1, [], []⟩)
          else (.ok cantProcessMsg, st, ⟨1, 1, [], []⟩)
      | .exc e =>
        if retries + 1 < max_retries then
          let r := queryLoop env question imgs cache_key max_retries fuel
            (retries + 1) (some e) st
          (r.1, r.2.1,
            ⟨r.2.2.admissionChecks + 1, r.2.2.backendCalls + 1,
              2 ^ (retries + 1) :: r.2.2.sleeps,
              (str "Erro ao enviar query: " ++ e) :: r.2.2.logged⟩)
        else
          (.ok errorMsg, st,
            ⟨1, 1, [],
              [str "Erro ao enviar query: " ++ e, str "Erro final: " ++ e]⟩)
    else
      (.ok (unavailableMsg env.waitMsg), st, ⟨1, 0, [], []⟩)

/-- `GeminiClient.send_query` (src/gemini_client.py lines 111-252).  The
trace records the number of `wait_for_token` admission checks, backend
dispatches, the backoff sleeps in seconds, and the printed error logs.
`.raised` marks an exception escaping `send_query`: the only source is the
`history.add_conversation` call on the cache-hit path (line 153), which sits
outside the `try` block.  Note the Python truthiness test
`if cached_response:` — a cached empty string is treated as a miss. -/
def send_query (env : QueryEnv) (st : GState) (question : Str)
    (image_paths : List Str) (max_retries : Nat) : QueryResult × GState × Trace :=
  if wantsWebSearch question then
    (.ok (webSearch env.web question), st, emptyTrace)
  else
    let cache_key := generate_cache_key env.fileMeta question image_paths
    let got := st.cache.get cache_key env.now
    let st1 : GState := { st with cache := got.2 }
    match got.1 with
    | some s =>
      if s ≠ [] then
        match env.histFails 0 with
        | some e => (.raised e, st1, emptyTrace)
        | none => (.ok s, addHistory st1 question s image_paths, emptyTrace)
      else
        queryLoop env question image_paths cache_key max_retries max_retries 0 none st1
    | none =>
      queryLoop env question image_paths cache_key max_retries max_retries 0 none st1

/-- Concrete environments and states for witnesses and counterexamples. -/
def envWeb : QueryEnv :=
  ⟨fun _ => none, fun _ => true, fun _ => true, [], fun _ => .exc [],
   fun _ => none, .status 200 [str "Gatos sao felinos domesticos."], 0⟩

def stWeb : GState :=
  ⟨⟨[(str "k", str "v", 0)], true, 3600, 100⟩, []⟩

def envNoLog : QueryEnv :=
  ⟨fun _ => none, fun _ => true, fun _ => false, str "pro: 60.0s",
   fun _ => .exc (str "x"), fun _ => none, .exc [], 0⟩

def envHitLogFail : QueryEnv :=
  ⟨fun _ => none, fun _ => true, fun _ => false, [], fun _ => .exc [],
   fun _ => some (str "sqlite3.OperationalError: database is locked"), .exc [], 0⟩

def stHit : GState :=
  ⟨⟨[(str "q", str "resposta", 0)], true, 3600, 100⟩, []⟩

def envAllFail : QueryEnv :=
  ⟨fun _ => none, fun _ => true, fun _ => true, [], fun _ => .exc (str "boom"),
   fun _ => none, .exc [], 0⟩

def stEmpty : GState := ⟨CacheManager.init Str true 3600 100, []⟩

/-- Concrete state with a live cached *empty* text for question "q", and an
environment whose limiter denies admission. -/
def stEmptyEntry : GState := ⟨⟨[(str "q", [], 0)], true, 3600, 100⟩, []⟩

def envDeny : QueryEnv :=
  ⟨fun _ => none, fun _ => true, fun _ => false, str "pro: 60.0s, flash: 10.0s",
   fun _ => .exc (str "x"), fun _ => none, .exc [], 0⟩

def envBackendOk : QueryEnv :=
  ⟨fun _ => none, fun _ => true, fun _ => true, [],
   fun _ => .resp (some (str "Resposta*boa")) false, fun _ => none, .exc [], 0⟩

def envSecondCall : QueryEnv :=
  ⟨fun _ => none, fun _ => true, fun _ => true, [],
   fun _ => .resp (some (str "Resposta*boa")) false, fun _ => none, .exc [], 100⟩

/-- Dual-tier state whose active (pro) tier is saturated (rpm 1, one fresh
grant) while the flash tier has capacity. -/
def rDual : RateLimiter :=
  ⟨ModelLimiter.mk 1 10 [0] [0], ModelLimiter.mk 5 50 [] [], ModelType.pro⟩

/-! ### C1: sliding-window invariant for one tier -/

lemma cleanQueue_eq_filter (now win : ℤ) :
    ∀ (ts : List ℤ), ts.Pairwise (· ≤ ·) →
      cleanQueue now win ts = ts.filter (fun t => decide (now - t < win)) := by
  intro ts h
  induction ts with
  | nil => rfl
  | cons t ts ih =>
    rw [List.pairwise_cons] at h
    by_cases hc : now - t ≥ win
    · have hnot : ¬ (now - t < win) := not_lt.mpr hc
      simp only [cleanQueue, if_pos hc, List.filter_cons, hnot, decide_eq_true_eq,
        if_neg hnot]
      simpa using ih h.2
    · push_neg at hc
      have hall : ∀ x ∈ ts, (fun t => decide (now - t < win)) x = true := by
        intro x hx
        simp only [decide_eq_true_eq]
        have hx' := h.1 x hx
        linarith
      simp only [cleanQueue, if_neg (not_le.mpr hc), List.filter_cons,
        decide_eq_true_eq, if_pos hc]
      rw [List.filter_eq_self.mpr hall]

lemma filter_window_shift (w T t : ℤ) (hT : T ≤ t) (gs : List ℤ) :
    (gs.filter (fun g => decide (T - g < w))).filter (fun g => decide (t - g < w)) =
      gs.filter (fun g => decide (t - g < w)) := by
  rw [List.filter_filter]
  apply List.filter_congr
  intro a _
  by_cases h : t - a < w
  · have h2 : T - a < w := by linarith
    simp [h, h2]
  · simp [h]

lemma try_acquire_inv {l : ModelLimiter} {gs : List ℤ} {T t : ℤ}
    (hinv : WinInv l gs T) (hT : T ≤ t) :
    WinInv (l.try_acquire t).2 (gs ++ if (l.try_acquire t).1 then [t] else []) t ∧
    (l.try_acquire t).2.rpm = l.rpm ∧ (l.try_acquire t).2.rpd = l.rpd := by
  obtain ⟨hm, hd, hpw, hle, hlm, hld⟩ := hinv
  have hpm : l.minute_requests.Pairwise (· ≤ ·) := hm ▸ hpw.filter _
  have hpd : l.day_requests.Pairwise (· ≤ ·) := hd ▸ hpw.filter _
  have hcm : cleanQueue t 60 l.minute_requests =
      gs.filter (fun g => decide (t - g < 60)) := by
    rw [cleanQueue_eq_filter t 60 _ hpm, hm, filter_window_shift 60 T t hT]
  have hcd : cleanQueue t 86400 l.day_requests =
      gs.filter (fun g => decide (t - g < 86400)) := by
    rw [cleanQueue_eq_filter t 86400 _ hpd, hd, filter_window_shift 86400 T t hT]
  have hlenm : (gs.filter (fun g => decide (t - g < 60))).length ≤ l.rpm := by
    calc (gs.filter (fun g => decide (t - g < 60))).length
        = gs.countP (fun g => decide (t - g < 60)) :=
          (List.countP_eq_length_filter _ _).symm
      _ ≤ gs.countP (fun g => decide (T - g < 60)) := by
          apply List.countP_mono_left
          intro a _ ha
          simp only [decide_eq_true_eq] at ha ⊢
          linarith
      _ = (gs.filter (fun g => decide (T - g < 60))).length :=
          List.countP_eq_length_filter _ _
      _ = l.minute_requests.length := by rw [hm]
      _ ≤ l.rpm := hlm
  have hlend : (gs.filter (fun g => decide (t - g < 86400))).length ≤ l.rpd := by
    calc (gs.filter (fun g => decide (t - g < 86400))).length
        = gs.countP (fun g => decide (t - g < 86400)) :=
          (List.countP_eq_length_filter _ _).symm
      _ ≤ gs.countP (fun g => decide (T - g < 86400)) := by
          apply List.countP_mono_left
          intro a _ ha
          simp only [decide_eq_true_eq] at ha ⊢
          linarith
      _ = (gs.filter (fun g => decide (T - g < 86400))).length :=
          List.countP_eq_length_filter _ _
      _ = l.day_requests.length := by rw [hd]
      _ ≤ l.rpd := hld
  have hle' : ∀ g ∈ gs, g ≤ t := fun g hg => le_trans (hle g hg) hT
  by_cases hcond : (cleanQueue t 60 l.minute_requests).length < l.rpm ∧
      (cleanQueue t 86400 l.day_requests).length < l.rpd
  · have heq : l.try_acquire t =
        (true, ⟨l.rpm, l.rpd, cleanQueue t 60 l.minute_requests ++ [t],
                cleanQueue t 86400 l.day_requests ++ [t]⟩) := by
      simp only [ModelLimiter.try_acquire, ModelLimiter.clean_old_requests]
      rw [if_pos hcond]
    rw [heq]
    simp only [if_true]
    unfold WinInv
    refine ⟨⟨?_, ?_, ?_, ?_, ?_, ?_⟩, by trivial, by trivial⟩
    · rw [hcm, List.filter_append]
      simp [sub_self]
    · rw [hcd, List.filter_append]
      simp [sub_self]
    · refine List.pairwise_append.mpr ⟨hpw, by simp, ?_⟩
      intro x hx y hy
      have hy' : y = t := List.mem_singleton.mp hy
      subst hy'
      exact hle' x hx
    · intro g hg
      rcases List.mem_append.mp hg with h | h
      · exact hle' g h
      · have : g = t := List.mem_singleton.mp h
        subst this
        exact le_refl _
    · have h1 := hcond.1
      rw [hcm] at h1
      rw [hcm]
      simp only [List.length_append, List.length_singleton]
      omega
    · have h1 := hcond.2
      rw [hcd] at h1
      rw [hcd]
      simp only [List.length_append, List.length_singleton]
      omega
  · have heq : l.try_acquire t =
        (false, ⟨l.rpm, l.rpd, cleanQueue t 60 l.minute_requests,
                 cleanQueue t 86400 l.day_requests⟩) := by
      simp only [ModelLimiter.try_acquire, ModelLimiter.clean_old_requests]
      rw [if_neg hcond]
    rw [heq]
    simp only [Bool.false_eq_true, if_false, List.append_nil]
    unfold WinInv
    refine ⟨⟨hcm, hcd, hpw, hle', ?_, ?_⟩, by trivial, by trivial⟩
    · simpa [hcm] using hlenm
    · simpa [hcd] using hlend

lemma runAcquires_inv : ∀ (ts : List ℤ) (l : ModelLimiter) (gs : List ℤ) (T : ℤ),
    WinInv l gs T → ts.Pairwise (· ≤ ·) → (∀ s ∈ ts, T ≤ s) →
    ∃ T', WinInv (l.runAcquires ts).1 (gs ++ (l.runAcquires ts).2) T' ∧
      (T' = T ∨ T' ∈ ts) ∧
      (l.runAcquires ts).1.rpm = l.rpm ∧ (l.runAcquires ts).1.rpd = l.rpd := by
  intro ts
  induction ts with
  | nil =>
    intro l gs T hinv _ _
    exact ⟨T, by simpa [ModelLimiter.runAcquires] using hinv, Or.inl rfl, rfl, rfl⟩
  | cons t ts ih =>
    intro l gs T hinv hpw hge
    rw [List.pairwise_cons] at hpw
    have hstep := try_acquire_inv hinv (hge t (List.mem_cons_self t ts))
    obtain ⟨T', hinv', hmem, hrpm1, hrpd1⟩ :=
      ih (l.try_acquire t).2 (gs ++ if (l.try_acquire t).1 then [t] else []) t
        hstep.1 hpw.2 (fun s hs => hpw.1 s hs)
    refine ⟨T', ?_, ?_, ?_, ?_⟩
    · simp only [ModelLimiter.runAcquires]
      rw [← List.append_assoc]
      exact hinv'
    · rcases hmem with h | h
      · exact Or.inr (h ▸ List.mem_cons_self t ts)
      · exact Or.inr (List.mem_cons_of_mem t h)
    · simp only [ModelLimiter.runAcquires]
      exact hrpm1.trans hstep.2.1
    · simp only [ModelLimiter.runAcquires]
      exact hrpd1.trans hstep.2.2

/-- C1: for every sequence of `try_acquire()` calls on one `ModelLimiter`
built with limits `rpm`/`rpd`, at every observation time `t` at or after the
calls, the number of granted calls whose grant timestamps lie in the trailing
60-second window is at most `rpm`, and in the trailing 86400-second window at
most `rpd`.  (Applying the theorem to each prefix of a call sequence covers
every intermediate point in time.) -/
theorem C1_tier_sliding_window_invariant (rpm rpd : Nat) (times : List ℤ)
    (hsorted : times.Pairwise (· ≤ ·)) (t : ℤ) (ht : ∀ s ∈ times, s ≤ t) :
    ((ModelLimiter.init rpm rpd).runAcquires times).2.countP
        (fun g => decide (t - g < 60)) ≤ rpm ∧
    ((ModelLimiter.init rpm rpd).runAcquires times).2.countP
        (fun g => decide (t - g < 86400)) ≤ rpd := by
  cases times with
  | nil => simp [ModelLimiter.runAcquires]
  | cons t₀ ts =>
    have hinv0 : WinInv (ModelLimiter.init rpm rpd) [] t₀ :=
      ⟨rfl, rfl, List.Pairwise.nil, by simp, Nat.zero_le _, Nat.zero_le _⟩
    have hge : ∀ s ∈ t₀ :: ts, t₀ ≤ s := by
      intro s hs
      rcases List.mem_cons.mp hs with h | h
      · exact h ▸ le_refl _
      · exact (List.pairwise_cons.mp hsorted).1 s h
    obtain ⟨T', hinv, hmem, hrpm, hrpd⟩ :=
      runAcquires_inv (t₀ :: ts) (ModelLimiter.init rpm rpd) [] t₀ hinv0 hsorted hge
    have hT't : T' ≤ t := by
      rcases hmem with h | h
      · exact h ▸ ht t₀ (List.mem_cons_self t₀ ts)
      · exact ht T' h
    obtain ⟨hm, hd, _, _, hlm, hld⟩ := hinv
    rw [List.nil_append] at hm hd
    constructor
    · calc ((ModelLimiter.init rpm rpd).runAcquires (t₀ :: ts)).2.countP
            (fun g => decide (t - g < 60))
          ≤ ((ModelLimiter.init rpm rpd).runAcquires (t₀ :: ts)).2.countP
            (fun g => decide (T' - g < 60)) := by
            apply List.countP_mono_left
            intro a _ ha
            simp only [decide_eq_true_eq] at ha ⊢
            linarith
        _ = (((ModelLimiter.init rpm rpd).runAcquires (t₀ :: ts)).2.filter
            (fun g => decide (T' - g < 60))).length := List.countP_eq_length_filter _ _
        _ = ((ModelLimiter.init rpm rpd).runAcquires (t₀ :: ts)).1.minute_requests.length := by
            rw [hm]
        _ ≤ ((ModelLimiter.init rpm rpd).runAcquires (t₀ :: ts)).1.rpm := hlm
        _ = rpm := hrpm
    · calc ((ModelLimiter.init rpm rpd).runAcquires (t₀ :: ts)).2.countP
            (fun g => decide (t - g < 86400))
          ≤ ((ModelLimiter.init rpm rpd).runAcquires (t₀ :: ts)).2.countP
            (fun g => decide (T' - g < 86400)) := by
            apply List.countP_mono_left
            intro a _ ha
            simp only [decide_eq_true_eq] at ha ⊢
            linarith
        _ = (((ModelLimiter.init rpm rpd).runAcquires (t₀ :: ts)).2.filter
            (fun g => decide (T' - g < 86400))).length := List.countP_eq_length_filter _ _
        _ = ((ModelLimiter.init rpm rpd).runAcquires (t₀ :: ts)).1.day_requests.length := by
            rw [hd]
        _ ≤ ((ModelLimiter.init rpm rpd).runAcquires (t₀ :: ts)).1.rpd := hrpd ▸ hld
        _ = rpd := hrpd

/-- Witness for C1 at a concrete run: limits (2, 10), calls at times 0, 1, 2,
observed at time 2. -/
theorem C1_tier_sliding_window_invariant_witness :
    ((ModelLimiter.init 2 10).runAcquires [0, 1, 2]).2.countP
        (fun g => decide ((2 : ℤ) - g < 60)) ≤ 2 ∧
    ((ModelLimiter.init 2 10).runAcquires [0, 1, 2]).2.countP
        (fun g => decide ((2 : ℤ) - g < 86400)) ≤ 10 :=
  C1_tier_sliding_window_invariant 2 10 [0, 1, 2] (by decide) 2 (by decide)

/-! ### C2: dual-tier acquire -/

lemma limiterOf_setLimiter_self (r : RateLimiter) (m : ModelType) (l : ModelLimiter) :
    (r.setLimiter m l).limiterOf m = l := by
  cases m <;> rfl

lemma limiterOf_setLimiter_other (r : RateLimiter) (m : ModelType) (l : ModelLimiter) :
    (r.setLimiter m l).limiterOf m.other = r.limiterOf m.other := by
  cases m <;> rfl

lemma current_setLimiter (r : RateLimiter) (m : ModelType) (l : ModelLimiter) :
    (r.setLimiter m l).current = r.current := by
  cases m <;> rfl

lemma try_acquire_fst (l : ModelLimiter) (now : ℤ) :
    (l.try_acquire now).1 = l.hasCapacity now := by
  unfold ModelLimiter.try_acquire ModelLimiter.hasCapacity
  by_cases h : (l.clean_old_requests now).minute_requests.length <
      (l.clean_old_requests now).rpm ∧
      (l.clean_old_requests now).day_requests.length < (l.clean_old_requests now).rpd
  · rw [if_pos h]
    simp [h.1, h.2]
  · rw [if_neg h]
    rw [not_and_or] at h
    rcases h with h | h <;> simp [h]

/-- C2: the dual-tier `RateLimiter.try_acquire` grants iff at least one
tier had spare capacity at call time; on a grant the current-tier pointer is
the tier that granted; the pointer changes only when the previously active
tier denied and the other granted; on a double denial it returns denied with
the pointer unchanged. -/
theorem C2_dual_tier_try_acquire (r : RateLimiter) (now : ℤ) :
    (r.try_acquire now).1 =
      ((r.limiterOf r.current).hasCapacity now ||
        (r.limiterOf r.current.other).hasCapacity now) ∧
    ((r.try_acquire now).1 = true →
      (r.try_acquire now).2.current =
        (if (r.limiterOf r.current).hasCapacity now then r.current
         else r.current.other)) ∧
    ((r.try_acquire now).2.current ≠ r.current →
      (r.limiterOf r.current).hasCapacity now = false ∧
      (r.limiterOf r.current.other).hasCapacity now = true) ∧
    ((r.try_acquire now).1 = false → (r.try_acquire now).2.current = r.current) := by
  simp only [RateLimiter.try_acquire, limiterOf_setLimiter_other, try_acquire_fst]
  by_cases hc1 : (r.limiterOf r.current).hasCapacity now = true
  · by_cases hc2 : (r.limiterOf r.current.other).hasCapacity now = true
    all_goals simp [hc1, hc2, current_setLimiter]
  · rw [Bool.not_eq_true] at hc1
    by_cases hc2 : (r.limiterOf r.current.other).hasCapacity now = true
    all_goals simp [hc1, hc2, current_setLimiter]

/-! ### C7: wait-time estimate -/

lemma wait_component_eq (win : ℤ) (cap : Nat) (q : List ℤ) (now : ℤ)
    (hpw : q.Pairwise (· ≤ ·)) (hlen : q.length ≤ cap) (hcap : 0 < cap) :
    (if cap ≤ q.length then max 0 (win - (now - q.headI)) else 0) =
    (if cap ≤ q.countP (fun g => decide (now - g < win))
     then win - (now - q.headI) else 0) := by
  by_cases hsat : cap ≤ q.countP (fun g => decide (now - g < win))
  · have hcl : q.countP (fun g => decide (now - g < win)) ≤ q.length :=
      List.countP_le_length _
    have hcaplen : cap ≤ q.length := le_trans hsat hcl
    have hcnt : q.countP (fun g => decide (now - g < win)) = q.length :=
      le_antisymm hcl (le_trans hlen hsat)
    have hfresh : ∀ a ∈ q, decide (now - a < win) = true :=
      List.countP_eq_length.mp hcnt
    rw [if_pos hcaplen, if_pos hsat]
    cases q with
    | nil => simp at hcaplen; omega
    | cons h t =>
      have hh : now - h < win := by
        have := hfresh h (List.mem_cons_self h t)
        simpa using this
      have : (0 : ℤ) ≤ win - (now - h) := by linarith
      simp only [List.headI]
      exact max_eq_right (by linarith)
  · rw [if_neg hsat]
    by_cases hlen2 : cap ≤ q.length
    · rw [if_pos hlen2]
      have hne : q.countP (fun g => decide (now - g < win)) ≠ q.length := by
        intro heq
        exact hsat (heq ▸ hlen2)
      have hstale : ¬ ∀ a ∈ q, decide (now - a < win) = true := by
        intro hall
        exact hne (List.countP_eq_length.mpr hall)
      push_neg at hstale
      obtain ⟨a, ha, hsa⟩ := hstale
      have hsa' : win ≤ now - a := by
        have hsa2 : ¬ (now - a < win) := by simpa using hsa
        exact not_lt.mp hsa2
      cases q with
      | nil => simp at ha
      | cons h t =>
        have hha : h ≤ a := by
          rcases List.mem_cons.mp ha with h1 | h1
          · exact h1 ▸ le_refl _
          · exact (List.pairwise_cons.mp hpw).1 a h1
        simp only [List.headI]
        exact max_eq_left (by linarith)
    · rw [if_neg hlen2]

/-- C7: `get_wait_time` returns 0 whenever the limiter is not saturated
(fewer than `rpm` grants in the trailing minute, fewer than `rpd` in the
trailing day); when a window is saturated it contributes the time until its
oldest in-window entry ages out, and the result is the larger of the two
contributions.  The hypotheses are the state invariants every reachable
`ModelLimiter` satisfies (sorted timestamps no later than `now`, queue lengths
bounded by the caps — see `WinInv`/`runAcquires_inv`) plus positive caps.
In particular (second conjunct) with `rpm = 3` and four `try_acquire` calls in
the same second, the fourth call is denied and the wait time is strictly
positive and at most 60. -/
theorem C7_get_wait_time (l : ModelLimiter) (now : ℤ)
    (hpm : l.minute_requests.Pairwise (· ≤ ·))
    (hpd : l.day_requests.Pairwise (· ≤ ·))
    (hlm : l.minute_requests.length ≤ l.rpm)
    (hld : l.day_requests.length ≤ l.rpd)
    (hrm : 0 < l.rpm) (hrd : 0 < l.rpd) :
    (l.get_wait_time now =
      max (if l.rpm ≤ l.minute_requests.countP (fun g => decide (now - g < 60))
           then 60 - (now - l.minute_requests.headI) else 0)
          (if l.rpd ≤ l.day_requests.countP (fun g => decide (now - g < 86400))
           then 86400 - (now - l.day_requests.headI) else 0)) ∧
    ((((ModelLimiter.init 3 30).runAcquires [0, 0, 0]).1.try_acquire 0).1 = false ∧
      ((ModelLimiter.init 3 30).runAcquires [0, 0, 0]).2.length = 3 ∧
      0 < ((ModelLimiter.init 3 30).runAcquires [0, 0, 0]).1.get_wait_time 0 ∧
      ((ModelLimiter.init 3 30).runAcquires [0, 0, 0]).1.get_wait_time 0 ≤ 60) := by
  constructor
  · unfold ModelLimiter.get_wait_time
    rw [wait_component_eq 60 l.rpm l.minute_requests now hpm hlm hrm,
        wait_component_eq 86400 l.rpd l.day_requests now hpd hld hrd]
  · refine ⟨by decide, by decide, by decide, by decide⟩

/-- Witness for C7 at a concrete saturated state: caps (3, 30), three grants
at time 0, observed at time 30. -/
theorem C7_get_wait_time_witness :
    (ModelLimiter.mk 3 30 [0, 0, 0] [0, 0, 0]).get_wait_time 30 =
      max (if 3 ≤ ([0, 0, 0] : List ℤ).countP (fun g => decide ((30 : ℤ) - g < 60))
           then 60 - ((30 : ℤ) - ([0, 0, 0] : List ℤ).headI) else 0)
          (if 30 ≤ ([0, 0, 0] : List ℤ).countP (fun g => decide ((30 : ℤ) - g < 86400))
           then 86400 - ((30 : ℤ) - ([0, 0, 0] : List ℤ).headI) else 0) :=
  (C7_get_wait_time (ModelLimiter.mk 3 30 [0, 0, 0] [0, 0, 0]) 30
    (by decide) (by decide) (by decide) (by decide) (by decide) (by decide)).1

lemma find?_append_of_none {β : Type} (p : β → Bool) (l₁ l₂ : List β)
    (h : l₁.find? p = none) : (l₁ ++ l₂).find? p = l₂.find? p := by
  induction l₁ with
  | nil => rfl
  | cons a l ih =>
    by_cases hp : p a = true
    · rw [List.find?_cons_of_pos _ hp] at h
      exact absurd h (by simp)
    · rw [List.find?_cons_of_neg _ hp] at h
      rw [List.cons_append, List.find?_cons_of_neg _ hp]
      exact ih h

lemma eraseP_append_of_none {β : Type} (p : β → Bool) (l₁ l₂ : List β)
    (h : ∀ a ∈ l₁, p a = false) : (l₁ ++ l₂).eraseP p = l₁ ++ l₂.eraseP p := by
  induction l₁ with
  | nil => rfl
  | cons a l ih =>
    have ha : ¬ p a = true := by
      rw [h a (List.mem_cons_self a l)]
      simp
    rw [List.cons_append, List.eraseP_cons_of_neg ha, List.cons_append,
      ih (fun x hx => h x (List.mem_cons_of_mem a hx))]

lemma eraseP_of_none {β : Type} (p : β → Bool) (l : List β)
    (h : ∀ a ∈ l, p a = false) : l.eraseP p = l := by
  have := eraseP_append_of_none p l [] h
  simpa using this

lemma eraseP_no_key {α : Type} (key : Str) (l : List (Str × α × ℤ))
    (hnd : NodupKeys l) :
    ∀ e ∈ l.eraseP (fun x => decide (x.1 = key)), e.1 ≠ key := by
  induction l with
  | nil => simp
  | cons a l ih =>
    rw [NodupKeys, List.map_cons, List.nodup_cons] at hnd
    by_cases hp : a.1 = key
    · rw [List.eraseP_cons_of_pos (by simp [hp])]
      intro e he heq
      exact hnd.1 (by rw [hp, ← heq]; exact List.mem_map_of_mem _ he)
    · rw [List.eraseP_cons_of_neg (by simp [hp])]
      intro e he
      rcases List.mem_cons.mp he with h | h
      · exact h ▸ hp
      · exact ih hnd.2 e h

/-- After `set`, the entry for `key` is the unique last entry, and a `get` of
the same key finds it. -/
lemma get_after_set {α : Type} (c : CacheManager α) (key : Str) (v : α)
    (now1 now2 : ℤ) (hen : c.enabled = true) (hnd : NodupKeys (evictOldest c.max_items c.cache)) :
    ((c.set key v now1).get key now2) =
      if now2 - now1 ≤ c.timeout then
        (some v, { c with cache := ((evictOldest c.max_items c.cache).eraseP
            (fun x => decide (x.1 = key))) ++ [(key, v, now1)] })
      else
        (none, { c with cache := ((evictOldest c.max_items c.cache).eraseP
            (fun x => decide (x.1 = key))) }) := by
  obtain ⟨cc, ce, ct, cm⟩ := c
  simp only at hen
  subst hen
  simp only at hnd
  have hR := eraseP_no_key key (evictOldest cm cc) hnd
  set R := (evictOldest cm cc).eraseP (fun x => decide (x.1 = key)) with hRdef
  have hRfalse : ∀ a ∈ R, (fun e : Str × α × ℤ => decide (e.1 = key)) a = false := by
    intro a ha
    simp only [decide_eq_false_iff_not]
    exact hR a ha
  have hRnone : R.find? (fun e => decide (e.1 = key)) = none := by
    rw [List.find?_eq_none]
    intro x hx
    simp only [decide_eq_true_eq]
    exact hR x hx
  have hfind : (R ++ [(key, v, now1)]).find? (fun e => decide (e.1 = key)) =
      some (key, v, now1) := by
    rw [find?_append_of_none _ _ _ hRnone]
    simp [List.find?_cons]
  have herase : (R ++ [(key, v, now1)]).eraseP (fun x => decide (x.1 = key)) = R := by
    rw [eraseP_append_of_none _ _ _ hRfalse, List.eraseP_cons_of_pos (by simp)]
    simp
  simp only [CacheManager.set, CacheManager.get, if_pos rfl, if_true]
  rw [hfind]
  by_cases ht : now2 - now1 ≤ ct
  · simp only [ht, if_pos ht, if_true, herase]
  · simp only [ht, if_neg ht, herase]

lemma evict_nodup {α : Type} (m : Nat) :
    ∀ l : List (Str × α × ℤ), NodupKeys l → NodupKeys (evictOldest m l) := by
  intro l
  induction l with
  | nil => intro h; exact h
  | cons e rest ih =>
    intro h
    rw [NodupKeys, List.map_cons, List.nodup_cons] at h
    simp only [evictOldest]
    by_cases hc : m ≤ (e :: rest).length
    · rw [if_pos hc]
      exact ih h.2
    · rw [if_neg hc]
      rw [NodupKeys, List.map_cons, List.nodup_cons]
      exact h

lemma evict_eq_drop {α : Type} (m : Nat) (_hm : 0 < m) :
    ∀ l : List (Str × α × ℤ), evictOldest m l = l.drop (l.length + 1 - m) := by
  intro l
  induction l with
  | nil => simp [evictOldest]
  | cons e rest ih =>
    simp only [evictOldest, List.length_cons]
    by_cases h : m ≤ rest.length + 1
    · rw [if_pos h, ih]
      have harith : rest.length + 1 + 1 - m = (rest.length + 1 - m) + 1 := by omega
      rw [harith, List.drop_succ_cons]
    · rw [if_neg h]
      have harith : rest.length + 1 + 1 - m = 0 := by omega
      rw [harith, List.drop_zero]

lemma evict_length_lt {α : Type} (m : Nat) (hm : 0 < m) :
    ∀ l : List (Str × α × ℤ), (evictOldest m l).length < m := by
  intro l
  induction l with
  | nil => simpa [evictOldest] using hm
  | cons e rest ih =>
    simp only [evictOldest]
    by_cases h : m ≤ (e :: rest).length
    · rw [if_pos h]
      exact ih
    · rw [if_neg h]
      exact not_le.mp h

lemma set_max_items {α : Type} (c : CacheManager α) (key : Str) (v : α) (now : ℤ) :
    (c.set key v now).max_items = c.max_items := by
  unfold CacheManager.set
  split <;> rfl

lemma set_enabled_eq {α : Type} (c : CacheManager α) (key : Str) (v : α) (now : ℤ) :
    (c.set key v now).enabled = c.enabled := by
  unfold CacheManager.set
  split <;> rfl

lemma set_length_le {α : Type} (c : CacheManager α) (key : Str) (v : α) (now : ℤ)
    (hm : 0 < c.max_items) (hlen : c.cache.length ≤ c.max_items) :
    (c.set key v now).cache.length ≤ c.max_items := by
  unfold CacheManager.set
  by_cases hen : c.enabled = true
  · rw [if_pos hen]
    have h1 : ((evictOldest c.max_items c.cache).eraseP
        (fun x => decide (x.1 = key))).length ≤ (evictOldest c.max_items c.cache).length :=
      (List.eraseP_sublist _).length_le
    have h2 : (evictOldest c.max_items c.cache).length < c.max_items :=
      evict_length_lt c.max_items hm c.cache
    simp only [List.length_append, List.length_singleton]
    omega
  · rw [if_neg hen]
    exact hlen

lemma setMany_length_le {α : Type} :
    ∀ (ops : List (Str × α × ℤ)) (c : CacheManager α),
    0 < c.max_items → c.cache.length ≤ c.max_items →
    (c.setMany ops).cache.length ≤ c.max_items := by
  intro ops
  induction ops with
  | nil =>
    intro c _ hlen
    simpa [CacheManager.setMany] using hlen
  | cons op ops ih =>
    intro c hm hlen
    have hstep := set_length_le c op.1 op.2.1 op.2.2 hm hlen
    have h1 := set_max_items c op.1 op.2.1 op.2.2
    have := ih (c.set op.1 op.2.1 op.2.2) (by rw [h1]; exact hm) (by rw [h1]; exact hstep)
    rw [h1] at this
    simpa [CacheManager.setMany] using this

/-- C3: with the cache enabled and a non-negative timeout, `set(key, value)`
followed immediately by `get(key)` returns `value`; when more than `timeout`
elapses between insertion and lookup, `get(key)` returns nothing and the
entry is deleted from the cache. -/
theorem C3_cache_set_get_roundtrip {α : Type} (c : CacheManager α) (key : Str)
    (v : α) (now1 now2 : ℤ) (hen : c.enabled = true) (hnd : NodupKeys c.cache) :
    (0 ≤ c.timeout → ((c.set key v now1).get key now1).1 = some v) ∧
    (c.timeout < now2 - now1 →
      ((c.set key v now1).get key now2).1 = none ∧
      ∀ e ∈ ((c.set key v now1).get key now2).2.cache, e.1 ≠ key) := by
  have hnd' : NodupKeys (evictOldest c.max_items c.cache) :=
    evict_nodup c.max_items c.cache hnd
  constructor
  · intro h0
    rw [get_after_set c key v now1 now1 hen hnd']
    rw [if_pos (by simpa using h0)]
  · intro hgt
    have hnle : ¬ (now2 - now1 ≤ c.timeout) := not_le.mpr hgt
    rw [get_after_set c key v now1 now2 hen hnd']
    rw [if_neg hnle]
    exact ⟨rfl, fun e he => eraseP_no_key key _ hnd' e he⟩

/-- Witness for C3: an enabled cache with timeout 10 and capacity 5; the value
7 stored under key "k" at time 0 is returned by an immediate `get` and gone at
time 11. -/
theorem C3_cache_set_get_roundtrip_witness :
    (((CacheManager.init ℤ true 10 5).set "k".data 7 0).get "k".data 0).1 = some 7 ∧
    (((CacheManager.init ℤ true 10 5).set "k".data 7 0).get "k".data 11).1 = none :=
  ⟨(C3_cache_set_get_roundtrip (CacheManager.init ℤ true 10 5) "k".data 7 0 11 rfl
      (by decide)).1 (by decide),
   ((C3_cache_set_get_roundtrip (CacheManager.init ℤ true 10 5) "k".data 7 0 11 rfl
      (by decide)).2 (by decide)).1⟩

/-- C4: (first conjunct) after any sequence of `set` calls from a freshly
constructed cache with positive capacity, the cache holds at most `max_items`
entries; (second conjunct) a single `set` on an enabled cache drops exactly
the oldest (least-recently-used, front) entries — none when under capacity —
and appends the new entry at the most-recently-used end. -/
theorem C4_cache_capacity_and_lru {α : Type} :
    (∀ (enabled : Bool) (timeout : ℤ) (m : Nat), 0 < m →
      ∀ ops : List (Str × α × ℤ),
        ((CacheManager.init α enabled timeout m).setMany ops).cache.length ≤ m) ∧
    (∀ (c : CacheManager α) (key : Str) (v : α) (now : ℤ),
      c.enabled = true → 0 < c.max_items →
      (c.set key v now).cache =
        ((c.cache.drop (c.cache.length + 1 - c.max_items)).eraseP
          (fun x => decide (x.1 = key))) ++ [(key, v, now)]) := by
  constructor
  · intro enabled timeout m hm ops
    exact setMany_length_le ops (CacheManager.init α enabled timeout m) hm (by simp [CacheManager.init])
  · intro c key v now hen hm
    unfold CacheManager.set
    rw [if_pos hen, evict_eq_drop c.max_items hm c.cache]

/-- Witness for C4: capacity 2, three insertions from empty stay within the
bound; a `set` on a full 2-entry cache evicts exactly the front (LRU) entry
and appends the new entry at the (MRU) end. -/
theorem C4_cache_capacity_and_lru_witness :
    ((CacheManager.init ℤ true 10 2).setMany
        [("a".data, 1, 0), ("b".data, 2, 0), ("c".data, 3, 1)]).cache.length ≤ 2 ∧
    ((CacheManager.mk [("a".data, 1, 0), ("b".data, 2, 0)] true 10 2).set
        "c".data 3 1).cache =
      ((([("a".data, (1 : ℤ), (0 : ℤ)), ("b".data, 2, 0)].drop 1).eraseP
        (fun x => decide (x.1 = "c".data))) ++ [("c".data, 3, 1)]) :=
  ⟨(C4_cache_capacity_and_lru (α := ℤ)).1 true 10 2 (by decide)
      [("a".data, 1, 0), ("b".data, 2, 0), ("c".data, 3, 1)],
   (C4_cache_capacity_and_lru (α := ℤ)).2
      (CacheManager.mk [("a".data, 1, 0), ("b".data, 2, 0)] true 10 2)
      "c".data 3 1 rfl (by decide)⟩

/-! ### C10: the web-search branch bypasses the core -/

lemma webSearch_ne_nil (web : WebOutcome) (question : Str) :
    webSearch web question ≠ [] := by
  simp only [webSearch]
  by_cases hq : strStrip
      (strRemoveAll (strRemoveAll (strLower question) phraseImperative) phraseNoun) = []
  · rw [if_pos hq]
    decide
  · rw [if_neg hq]
    cases web with
    | exc e =>
      dsimp only
      intro h
      rw [List.append_eq_nil] at h
      exact absurd h.1 (by decide)
    | status code snippets =>
      dsimp only
      by_cases hc : code = 200
      · rw [if_pos hc]
        by_cases hs : snippets.take 3 = []
        · rw [if_pos hs]
          decide
        · rw [if_neg hs]
          unfold sanitizeText
          rw [List.filter_append]
          intro h
          rw [List.append_eq_nil] at h
          exact absurd h.1 (by decide)
      · rw [if_neg hc]
        decide

/-- C10: whenever the lowercased question contains "pesquise na internet" or
"pesquisa na internet", `send_query` takes the web-search branch: the cache is
neither read nor written, no rate-limiter admission is consumed, no backend
dispatch happens, no conversation record is written (state returned exactly as
given, empty effect trace), and a non-empty textual response is returned. -/
theorem C10_web_search_bypass (env : QueryEnv) (st : GState) (question : Str)
    (imgs : List Str) (m : Nat) (hweb : wantsWebSearch question = true) :
    send_query env st question imgs m =
      (.ok (webSearch env.web question), st, emptyTrace) ∧
    webSearch env.web question ≠ [] := by
  constructor
  · unfold send_query
    rw [if_pos hweb]
  · exact webSearch_ne_nil env.web question

/-- Witness for C10: a concrete question "pesquise na internet gatos" with a
200-status web result and a non-empty cache/history state. -/
theorem C10_web_search_bypass_witness :
    send_query envWeb stWeb (str "pesquise na internet gatos") [] 3 =
      (.ok (webSearch envWeb.web (str "pesquise na internet gatos")), stWeb, emptyTrace) ∧
    webSearch envWeb.web (str "pesquise na internet gatos") ≠ [] :=
  C10_web_search_bypass envWeb stWeb (str "pesquise na internet gatos") [] 3 (by decide)

/-! ### C9: exception propagation -/

lemma queryLoop_isOk (env : QueryEnv) (question : Str) (imgs : List Str)
    (cache_key : Str) (max_retries : Nat)
    (hh : ∀ k, env.histFails k = none) :
    ∀ (fuel retries : Nat) (lastError : Option Str) (st : GState),
      (queryLoop env question imgs cache_key max_retries fuel retries lastError st).1.isOk
        = true := by
  intro fuel
  induction fuel with
  | zero =>
    intro retries last st
    rfl
  | succ fuel ih =>
    intro retries last st
    simp only [queryLoop]
    by_cases ha : env.admission retries = true
    · rw [if_pos ha]
      cases hb : env.backend retries with
      | exc e =>
        dsimp only
        by_cases hr : retries + 1 < max_retries
        · rw [if_pos hr]
          exact ih _ _ _
        · rw [if_neg hr]
          rfl
      | resp text blocked =>
        dsimp only
        cases text with
        | none => cases blocked <;> rfl
        | some s =>
          dsimp only
          by_cases hs : s ≠ []
          · rw [if_pos hs, hh retries]
            rfl
          · rw [if_neg hs]
            cases blocked <;> rfl
    · rw [if_neg ha]
      rfl

/-- C9 (amended): provided the conversation-log collaborator does not raise,
no error condition inside `send_query` terminates the process or propagates an
exception: every execution path resolves to a textual response.  (As stated
the claim is false: `history.add_conversation` on the cache-hit path sits
outside the `try` block, so a log failure there propagates — see the
counterexample — and inside the dispatch loop a log failure is caught by the
retry mechanism rather than ignored.) -/
theorem C9_every_path_textual (env : QueryEnv) (st : GState) (question : Str)
    (imgs : List Str) (m : Nat) (hh : ∀ k, env.histFails k = none) :
    (send_query env st question imgs m).1.isOk = true := by
  unfold send_query
  by_cases hw : wantsWebSearch question = true
  · rw [if_pos hw]
    rfl
  · rw [if_neg hw]
    simp only []
    cases hg : (st.cache.get (generate_cache_key env.fileMeta question imgs) env.now).1 with
    | none =>
      exact queryLoop_isOk env question imgs _ m hh m 0 none _
    | some s =>
      dsimp only
      by_cases hs : s ≠ []
      · rw [if_pos hs, hh 0]
        rfl
      · rw [if_neg hs]
        exact queryLoop_isOk env question imgs _ m hh m 0 none _

/-- Witness for C9 (amended) at a concrete environment whose log collaborator
never fails and whose limiter denies admission. -/
theorem C9_every_path_textual_witness :
    (send_query envNoLog stWeb (str "oi") [] 3).1.isOk = true :=
  C9_every_path_textual envNoLog stWeb (str "oi") [] 3 (fun _ => rfl)

/-- Counterexample to C9 as stated: with a live non-empty cache entry for the
question "q" and a conversation-log collaborator that raises (sqlite lock),
`send_query` propagates the exception instead of resolving to a textual
response. -/
theorem C9_counterexample :
    (send_query envHitLogFail stHit (str "q") [] 3).1 =
      .raised (str "sqlite3.OperationalError: database is locked") := by
  decide

/-! ### C8: metadata failure and the fingerprint -/

lemma intercalate_single (sep a : Str) : List.intercalate sep [a] = a := by
  simp [List.intercalate]

lemma intercalate_pair (sep a b : Str) :
    List.intercalate sep [a, b] = a ++ sep ++ b := by
  simp [List.intercalate, List.intersperse]

/-- Counterexample to C8 as stated: with the metadata lookup failing for
"img.png", the fingerprint of question "q" with that image attached differs
from the fingerprint of the same question without it — the bare path is still
folded into the key, the image is not dropped from the fingerprint. -/
theorem C8_counterexample :
    generate_cache_key (fun _ => none) (str "q") [str "img.png"] ≠
      generate_cache_key (fun _ => none) (str "q") [] := by
  decide

/-- C8 (amended): when the metadata lookup for an attached image fails, the
query is not aborted — the image's bare path (without mtime/size) is appended
to the fingerprint input, so the fingerprint differs from the one of the same
query without that image; the image is dropped from the backend call exactly
when opening it fails (a separate failure), while a metadata-failing but
openable image is still sent. -/
theorem C8_metadata_failure (fm : Str → Option (ℤ × ℤ)) (q p : Str)
    (hp : fm p = none) (ok : Str → Bool) (paths : List Str) :
    generate_cache_key fm q [p] = q ++ str "||" ++ p ∧
    generate_cache_key fm q [p] ≠ generate_cache_key fm q [] ∧
    (ok p = false → p ∉ process_images ok paths) ∧
    (ok p = true → p ∈ paths → p ∈ process_images ok paths) := by
  have h1 : generate_cache_key fm q [p] = q ++ str "||" ++ p := by
    simp only [generate_cache_key, List.map_cons, List.map_nil, hp]
    exact intercalate_pair _ _ _
  refine ⟨h1, ?_, ?_, ?_⟩
  · rw [h1]
    simp only [generate_cache_key, List.map_nil]
    rw [intercalate_single]
    intro h
    have hlen := congrArg List.length h
    simp only [List.length_append] at hlen
    have : (str "||").length = 2 := by decide
    omega
  · intro hok hmem
    rw [process_images, List.mem_filter] at hmem
    rw [hok] at hmem
    exact absurd hmem.2 (by simp)
  · intro hok hmem
    rw [process_images, List.mem_filter]
    exact ⟨hmem, hok⟩

/-- Witness for C8 (amended) at a concrete failing lookup. -/
theorem C8_metadata_failure_witness :
    generate_cache_key (fun _ => none) (str "q") [str "img.png"] =
        str "q" ++ str "||" ++ str "img.png" ∧
    generate_cache_key (fun _ => none) (str "q") [str "img.png"] ≠
      generate_cache_key (fun _ => none) (str "q") [] ∧
    ((fun _ : Str => false) (str "img.png") = false →
      str "img.png" ∉ process_images (fun _ => false) [str "img.png"]) ∧
    ((fun _ : Str => false) (str "img.png") = true →
      str "img.png" ∈ [str "img.png"] →
      str "img.png" ∈ process_images (fun _ => false) [str "img.png"]) :=
  C8_metadata_failure (fun _ => none) (str "q") (str "img.png") rfl
    (fun _ => false) [str "img.png"]

/-! ### C6: retry with exponential backoff, exhaustion -/

lemma range_map_shift {β : Type} (f : Nat → β) (n : Nat) :
    (List.range (n + 1)).map f = f 0 :: (List.range n).map (fun i => f (i + 1)) := by
  rw [List.range_succ_eq_map, List.map_cons, List.map_map]
  rfl

lemma queryLoop_all_fail (env : QueryEnv) (question : Str) (imgs : List Str)
    (cache_key : Str) (m : Nat) (errs : Nat → Str)
    (hadm : ∀ k, k < m → env.admission k = true)
    (hback : ∀ k, k < m → env.backend k = .exc (errs k)) :
    ∀ (fuel retries : Nat) (last : Option Str) (st : GState),
      fuel + retries = m → 0 < fuel →
      queryLoop env question imgs cache_key m fuel retries last st =
        (.ok errorMsg, st,
          ⟨fuel, fuel,
            (List.range (fuel - 1)).map (fun i => 2 ^ (retries + 1 + i)),
            ((List.range fuel).map
              (fun i => str "Erro ao enviar query: " ++ errs (retries + i))) ++
              [str "Erro final: " ++ errs (m - 1)]⟩) := by
  intro fuel
  induction fuel with
  | zero =>
    intro retries last st _ h0
    exact absurd h0 (lt_irrefl 0)
  | succ fuel ih =>
    intro retries last st hsum _
    have hrm : retries < m := by omega
    simp only [queryLoop]
    rw [if_pos (hadm retries hrm), hback retries hrm]
    dsimp only
    by_cases hf : fuel = 0
    · subst hf
      have hnot : ¬ (retries + 1 < m) := by omega
      rw [if_neg hnot]
      have hm1 : m - 1 = retries := by omega
      rw [hm1]
      simp [List.range_succ]
    · have hlt : retries + 1 < m := by omega
      rw [if_pos hlt]
      rw [ih (retries + 1) (some (errs retries)) st (by omega) (by omega)]
      obtain ⟨n, rfl⟩ : ∃ n, fuel = n + 1 := ⟨fuel - 1, by omega⟩
      dsimp only
      simp only [Prod.mk.injEq, Trace.mk.injEq, Nat.add_sub_cancel, true_and]
      refine ⟨?_, ?_⟩
      · rw [range_map_shift (fun i => 2 ^ (retries + 1 + i)) n]
        refine congrArg₂ _ rfl ?_
        apply List.map_congr_left
        intro i _
        congr 1
        omega
      · rw [range_map_shift (fun i => str "Erro ao enviar query: " ++ errs (retries + i))
          (n + 1), List.cons_append]
        refine congrArg₂ _ rfl ?_
        refine congrArg₂ _ ?_ rfl
        apply List.map_congr_left
        intro i _
        have harg : retries + (i + 1) = retries + 1 + i := by omega
        rw [harg]

/-- C6: when the backend raises on every attempt (admission always granted),
`send_query` retries up to the cap `max_retries`, sleeping `2^attempt` seconds
between consecutive attempts — for `max_retries = 3` the two sleeps are 2s and
4s — performs exactly `max_retries` admission checks and dispatches, then
returns the generic failure text (no exception propagates) and logs the last
underlying error; cache and conversation log are untouched. -/
theorem C6_retry_backoff_exhaustion (env : QueryEnv) (st : GState)
    (question : Str) (imgs : List Str) (m : Nat) (errs : Nat → Str)
    (hweb : wantsWebSearch question = false)
    (hmiss : (st.cache.get (generate_cache_key env.fileMeta question imgs) env.now).1 = none)
    (hadm : ∀ k, k < m → env.admission k = true)
    (hback : ∀ k, k < m → env.backend k = .exc (errs k))
    (hm : 0 < m) :
    send_query env st question imgs m =
      (.ok errorMsg,
       ⟨(st.cache.get (generate_cache_key env.fileMeta question imgs) env.now).2,
        st.history⟩,
       ⟨m, m, (List.range (m - 1)).map (fun i => 2 ^ (i + 1)),
        ((List.range m).map (fun i => str "Erro ao enviar query: " ++ errs i)) ++
          [str "Erro final: " ++ errs (m - 1)]⟩) := by
  have hw : ¬ wantsWebSearch question = true := by
    rw [hweb]
    simp
  unfold send_query
  rw [if_neg hw]
  simp only []
  rw [hmiss]
  dsimp only
  rw [queryLoop_all_fail env question imgs _ m errs hadm hback m 0 none _ (by omega) hm]
  simp only [Prod.mk.injEq, Trace.mk.injEq, true_and]
  refine ⟨?_, ?_⟩
  · apply List.map_congr_left
    intro i _
    congr 1
    omega
  · refine congrArg₂ _ ?_ rfl
    apply List.map_congr_left
    intro i _
    have harg : (0 : Nat) + i = i := by omega
    rw [harg]

/-- Witness for C6 at `max_retries = 3`: the backend fails three times, the
two backoff sleeps are 2s and 4s, three dispatches happen, and the generic
failure text is returned. -/
theorem C6_retry_backoff_exhaustion_witness :
    (send_query envAllFail stEmpty (str "pergunta") [] 3).2.2.sleeps = [2, 4] ∧
    (send_query envAllFail stEmpty (str "pergunta") [] 3).1 = .ok errorMsg ∧
    (send_query envAllFail stEmpty (str "pergunta") [] 3).2.2.backendCalls = 3 := by
  have h := C6_retry_backoff_exhaustion envAllFail stEmpty (str "pergunta") [] 3
    (fun _ => str "boom") (by decide) (by decide) (fun _ _ => rfl) (fun _ _ => rfl)
    (by decide)
  rw [h]
  exact ⟨by decide, rfl, rfl⟩

/-! ### C5: cache-hit short circuit -/

lemma get_snd_fields {α : Type} (c : CacheManager α) (key : Str) (now : ℤ) :
    (c.get key now).2.enabled = c.enabled ∧
    (c.get key now).2.timeout = c.timeout ∧
    (c.get key now).2.max_items = c.max_items := by
  unfold CacheManager.get
  by_cases he : c.enabled = true
  · rw [if_pos he]
    cases hf : c.cache.find? (fun e => decide (e.1 = key)) with
    | none => exact ⟨rfl, rfl, rfl⟩
    | some e =>
      dsimp only
      by_cases ht : now - e.2.2 ≤ c.timeout
      · rw [if_pos ht]
        exact ⟨rfl, rfl, rfl⟩
      · rw [if_neg ht]
        exact ⟨rfl, rfl, rfl⟩
  · rw [if_neg he]
    exact ⟨rfl, rfl, rfl⟩

lemma get_nodup {α : Type} (c : CacheManager α) (key : Str) (now : ℤ)
    (hnd : NodupKeys c.cache) : NodupKeys (c.get key now).2.cache := by
  have hsub : NodupKeys (c.cache.eraseP (fun x => decide (x.1 = key))) :=
    List.Nodup.sublist ((List.eraseP_sublist _).map _) hnd
  unfold CacheManager.get
  by_cases he : c.enabled = true
  · rw [if_pos he]
    cases hf : c.cache.find? (fun e => decide (e.1 = key)) with
    | none => exact hnd
    | some e =>
      have hek : e.1 = key := by
        have := List.find?_some hf
        simpa using this
      dsimp only
      by_cases ht : now - e.2.2 ≤ c.timeout
      · rw [if_pos ht]
        show NodupKeys (c.cache.eraseP (fun x => decide (x.1 = key)) ++ [e])
        unfold NodupKeys
        rw [List.map_append]
        refine List.Nodup.append hsub (List.nodup_singleton _) ?_
        intro a ha hb
        rw [List.mem_map] at ha
        obtain ⟨x, hx, rfl⟩ := ha
        simp only [List.map_cons, List.map_nil, List.mem_singleton] at hb
        exact eraseP_no_key key c.cache hnd x hx (hb.trans hek)
      · rw [if_neg ht]
        exact hsub
  · rw [if_neg he]
    exact hnd

/-- The cache-hit path of `send_query`: a live, *non-empty* cached text is
returned directly, the interaction is recorded in the conversation log, and
the trace is empty (no admission check, no backend dispatch). -/
lemma send_query_hit (env : QueryEnv) (st : GState) (question : Str)
    (imgs : List Str) (m : Nat) (s : Str)
    (hw : wantsWebSearch question = false)
    (hhit : (st.cache.get (generate_cache_key env.fileMeta question imgs) env.now).1
      = some s)
    (hs : s ≠ [])
    (hh : env.histFails 0 = none) :
    send_query env st question imgs m =
      (.ok s,
       ⟨(st.cache.get (generate_cache_key env.fileMeta question imgs) env.now).2,
        st.history ++ [⟨question, s, imgs⟩]⟩,
       emptyTrace) := by
  have hw' : ¬ wantsWebSearch question = true := by
    rw [hw]
    simp
  unfold send_query
  rw [if_neg hw']
  simp only []
  rw [hhit]
  dsimp only
  rw [if_pos hs, hh]
  rfl

/-- The first loop iteration when admission is granted and the backend answers
with a non-empty text whose sanitization is stored and logged. -/
lemma send_query_first_success (env : QueryEnv) (st : GState) (question : Str)
    (imgs : List Str) (m : Nat) (s₀ : Str) (blocked : Bool)
    (hw : wantsWebSearch question = false)
    (hmiss : (st.cache.get (generate_cache_key env.fileMeta question imgs) env.now).1
      = none)
    (hadm : env.admission 0 = true)
    (hback : env.backend 0 = .resp (some s₀) blocked)
    (hs₀ : s₀ ≠ [])
    (hh : env.histFails 0 = none)
    (hm : 0 < m) :
    send_query env st question imgs m =
      (.ok (sanitizeText s₀),
       addHistory
         ⟨((st.cache.get (generate_cache_key env.fileMeta question imgs) env.now).2).set
             (generate_cache_key env.fileMeta question imgs) (sanitizeText s₀) env.now,
          st.history⟩
         question (sanitizeText s₀) imgs,
       ⟨1, 1, [], []⟩) := by
  have hw' : ¬ wantsWebSearch question = true := by
    rw [hw]
    simp
  unfold send_query
  rw [if_neg hw']
  simp only []
  rw [hmiss]
  dsimp only
  obtain ⟨n, rfl⟩ : ∃ n, m = n + 1 := ⟨m - 1, by omega⟩
  simp only [queryLoop]
  rw [if_pos hadm, hback]
  dsimp only
  rw [if_pos hs₀, hh]

/-- C5 (amended): first conjunct — whenever the fingerprint of the question
and image list has a live cache entry holding a *non-empty* text (the code
tests `if cached_response:`, so an empty cached string falls through to the
miss path, see the counterexample), `send_query` records the interaction in
the conversation log and returns the cached text with no admission check and
no backend dispatch.  Second conjunct — two identical calls (same question,
same image metadata) within the cache TTL, where the first call's sanitized
backend answer is non-empty, return the same text, and the second call has an
empty effect trace: it consumes no admission and dispatches nothing. -/
theorem C5_cache_hit_short_circuit :
    (∀ (env : QueryEnv) (st : GState) (question : Str) (imgs : List Str)
      (m : Nat) (s : Str),
      wantsWebSearch question = false →
      (st.cache.get (generate_cache_key env.fileMeta question imgs) env.now).1 = some s →
      s ≠ [] →
      env.histFails 0 = none →
      send_query env st question imgs m =
        (.ok s,
         ⟨(st.cache.get (generate_cache_key env.fileMeta question imgs) env.now).2,
          st.history ++ [⟨question, s, imgs⟩]⟩,
         emptyTrace)) ∧
    (∀ (env env' : QueryEnv) (st : GState) (question : Str) (imgs : List Str)
      (m m' : Nat) (s₀ : Str) (blocked : Bool),
      wantsWebSearch question = false →
      (st.cache.get (generate_cache_key env.fileMeta question imgs) env.now).1 = none →
      env.admission 0 = true →
      env.backend 0 = .resp (some s₀) blocked →
      s₀ ≠ [] →
      sanitizeText s₀ ≠ [] →
      env.histFails 0 = none →
      env'.histFails 0 = none →
      env'.fileMeta = env.fileMeta →
      st.cache.enabled = true →
      NodupKeys st.cache.cache →
      env'.now - env.now ≤ st.cache.timeout →
      0 < m →
      (send_query env st question imgs m).1 = .ok (sanitizeText s₀) ∧
      (send_query env' (send_query env st question imgs m).2.1 question imgs m').1 =
        .ok (sanitizeText s₀) ∧
      (send_query env' (send_query env st question imgs m).2.1 question imgs m').2.2 =
        emptyTrace) := by
  constructor
  · intro env st question imgs m s hw hhit hs hh
    exact send_query_hit env st question imgs m s hw hhit hs hh
  · intro env env' st question imgs m m' s₀ blocked hw hmiss hadm hback hs₀ hsan hh hh'
      hfm hen hnd htime hm
    have h1 := send_query_first_success env st question imgs m s₀ blocked hw hmiss hadm
      hback hs₀ hh hm
    set key := generate_cache_key env.fileMeta question imgs with hkey
    set got2 := (st.cache.get key env.now).2 with hgot2
    have hen2 : got2.enabled = true := by
      rw [hgot2, (get_snd_fields st.cache key env.now).1, hen]
    have hto2 : got2.timeout = st.cache.timeout :=
      (get_snd_fields st.cache key env.now).2.1
    have hnd2 : NodupKeys got2.cache := get_nodup st.cache key env.now hnd
    have hndE : NodupKeys (evictOldest got2.max_items got2.cache) :=
      evict_nodup got2.max_items got2.cache hnd2
    have hget2 := get_after_set got2 key (sanitizeText s₀) env.now env'.now hen2 hndE
    rw [if_pos (by rw [hto2]; exact htime)] at hget2
    have hst1 : (send_query env st question imgs m).2.1 =
        addHistory ⟨got2.set key (sanitizeText s₀) env.now, st.history⟩
          question (sanitizeText s₀) imgs := by
      rw [h1]
    have hhit2 : (((send_query env st question imgs m).2.1).cache.get
        (generate_cache_key env'.fileMeta question imgs) env'.now).1 =
        some (sanitizeText s₀) := by
      rw [hst1, hfm, ← hkey]
      show ((got2.set key (sanitizeText s₀) env.now).get key env'.now).1 =
        some (sanitizeText s₀)
      rw [hget2]
    have h2 := send_query_hit env' (send_query env st question imgs m).2.1 question imgs
      m' (sanitizeText s₀) hw hhit2 hsan hh'
    refine ⟨by rw [h1], by rw [h2], by rw [h2]⟩

/-- Counterexample to C5 as stated: the fingerprint of question "q" has a
live (non-expired) cache entry — holding the empty string — yet `send_query`
performs an admission check (`if cached_response:` is false for `""`), so the
call does not return the cached text with no admission check. -/
theorem C5_counterexample :
    (stEmptyEntry.cache.get (generate_cache_key envDeny.fileMeta (str "q") [])
      envDeny.now).1 = some [] ∧
    (send_query envDeny stEmptyEntry (str "q") [] 3).2.2.admissionChecks = 1 ∧
    (send_query envDeny stEmptyEntry (str "q") [] 3).1 ≠ .ok [] :=
  ⟨by decide, by decide, by decide⟩

/-- Witness for C5 (amended): a concrete live non-empty hit, and a concrete
identical pair of calls 100 seconds apart (TTL 3600) whose second call
returns the first call's sanitized text with an empty trace. -/
theorem C5_cache_hit_short_circuit_witness :
    (send_query envDeny stHit (str "q") [] 3 =
      (.ok (str "resposta"),
       ⟨(stHit.cache.get (generate_cache_key envDeny.fileMeta (str "q") [])
           envDeny.now).2,
        stHit.history ++ [⟨str "q", str "resposta", []⟩]⟩,
       emptyTrace)) ∧
    ((send_query envBackendOk stEmpty (str "q") [] 3).1 =
        .ok (sanitizeText (str "Resposta*boa")) ∧
      (send_query envSecondCall (send_query envBackendOk stEmpty (str "q") [] 3).2.1
          (str "q") [] 3).1 = .ok (sanitizeText (str "Resposta*boa")) ∧
      (send_query envSecondCall (send_query envBackendOk stEmpty (str "q") [] 3).2.1
          (str "q") [] 3).2.2 = emptyTrace) :=
  ⟨C5_cache_hit_short_circuit.1 envDeny stHit (str "q") [] 3 (str "resposta")
      (by decide) (by decide) (by decide) rfl,
   C5_cache_hit_short_circuit.2 envBackendOk envSecondCall stEmpty (str "q") [] 3 3
      (str "Resposta*boa") false (by decide) (by decide) rfl rfl (by decide) (by decide)
      rfl rfl rfl rfl (by decide) (by decide) (by decide)⟩

/-- Witness for C2 at a concrete state: the saturated pro tier denies at time
0, the flash tier grants, and the pointer switches to flash. -/
theorem C2_dual_tier_try_acquire_witness :
    (rDual.try_acquire 0).1 =
      ((rDual.limiterOf rDual.current).hasCapacity 0 ||
        (rDual.limiterOf rDual.current.other).hasCapacity 0) ∧
    ((rDual.try_acquire 0).1 = true →
      (rDual.try_acquire 0).2.current =
        (if (rDual.limiterOf rDual.current).hasCapacity 0 then rDual.current
         else rDual.current.other)) ∧
    ((rDual.try_acquire 0).2.current ≠ rDual.current →
      (rDual.limiterOf rDual.current).hasCapacity 0 = false ∧
      (rDual.limiterOf rDual.current.other).hasCapacity 0 = true) ∧
    ((rDual.try_acquire 0).1 = false → (rDual.try_acquire 0).2.current = rDual.current) :=
  C2_dual_tier_try_acquire rDual 0

end VoiceAssist

